import Mathlib

/-!
Shallow embedding of the gemini-waiting telehealth waiting-room coordinator.
The Django ORM store is modelled as an explicit record of tables; all
status values are the literal strings the source writes ("Waiting",
"In Progress", "In Call", "Left Call", "Done", "Cancelled").  Randomness
(PIN draws, freshly minted uuids) is passed in as explicit inputs, and
broadcast publishes are returned as explicit signal values.  Python
truthiness of optional string fields (absent field or empty string are
both falsy in guards such as `if patient_uuid:`) is modelled by
`isTruthy` on `Option String`.
-/

namespace WaitingRoomModel

/-- Truthiness of an optional string field of a JSON message: Python
treats both a missing field (`None`) and the empty string as falsy. -/
def isTruthy : Option String → Bool
  | none => false
  | some s => s != ""

/-- A row of the Patient table (`waitingroom/models.py`): `uuid` is unique,
`name` is mutable. -/
structure Patient where
  uuid : String
  name : String
deriving DecidableEq

/-- A row of the WaitingRoomEntry table (`waitingroom/models.py`).  The
foreign keys are modelled by the doctor's numeric id and the patient's
unique uuid; `arrivedAt` is the auto-set creation timestamp (a counter). -/
structure Entry where
  id : Nat
  doctorId : Nat
  patientUuid : String
  status : String
  arrivedAt : Nat
  hostPin : String
  guestPin : String
  addedByDoctor : Bool
  whiteboardActive : Bool
deriving DecidableEq

/-- The store: the Doctor table (only ids matter to the core), the Patient
and WaitingRoomEntry tables, plus the auto-increment counters used for
entry primary keys and `arrived_at` timestamps. -/
structure Store where
  doctors : List Nat
  patients : List Patient
  entries : List Entry
  nextEntryId : Nat
  nextArrival : Nat
deriving DecidableEq

/-- The `status__in=['Waiting', 'In Progress', 'In Call']` filter used by
duplicate-join suppression, disconnect handling and explicit leave. -/
def activeStatus (st : String) : Bool :=
  st == "Waiting" || st == "In Progress" || st == "In Call"

/-- The `status__in=['Done', 'Cancelled', 'Left Call']` set excluded from
the live waiting list and deleted by the history purge. -/
def terminalDisplay (st : String) : Bool :=
  st == "Done" || st == "Cancelled" || st == "Left Call"

/-- A broadcast published to a doctor's channel-layer group.  The only
signal the verified claims need is the `waiting_list_update` refresh. -/
inductive Signal where
  | refresh (doctorId : Nat)
deriving DecidableEq

/-- Some pin string equals the `host_pin` or the `guest_pin` of some row,
as checked by `_generate_unique_pin` (`consumers.py` lines 175-176). -/
def pinExists (entries : List Entry) (pin : String) : Bool :=
  entries.any (fun e => e.hostPin == pin) || entries.any (fun e => e.guestPin == pin)

/-- `_generate_unique_pin` (`consumers.py` lines 170-177): repeatedly draw a
random value and accept the first whose decimal string collides with no
stored host or guest pin.  The unbounded random stream is modelled by an
explicit finite list of draws; `none` means the stream was exhausted
(the source would keep looping). -/
def generateUniquePin (entries : List Entry) : List Nat → Option (String × List Nat)
  | [] => none
  | r :: rest =>
    let pin := toString r
    if pinExists entries pin then generateUniquePin entries rest
    else some (pin, rest)

/-- `Patient.objects.get_or_create(uuid=..., defaults=\x7b'name': ...\x7d)`
followed by the name refresh (`consumers.py` lines 371-378): reuse the
patient with this uuid, overwriting its name when it differs; otherwise
create a patient with exactly this uuid and name.  Returns the updated
Patient table and the resolved patient. -/
def resolvePatientByUuid (patients : List Patient) (u name : String) :
    List Patient × Patient :=
  match patients.find? (fun p => p.uuid == u) with
  | some p =>
    if p.name != name then
      let p2 : Patient := { p with name := name }
      (patients.map (fun q => if q.uuid == u then p2 else q), p2)
    else (patients, p)
  | none =>
    let p : Patient := { uuid := u, name := name }
    (patients ++ [p], p)

/-- `Patient.objects.get_or_create(name=patient_name)` plus the fresh-uuid
assignment (`consumers.py` lines 380-383): reuse the unique patient with
this name when one exists; create one carrying the freshly minted uuid
when none exists; raise `MultipleObjectsReturned` (modelled as `none`,
which aborts the surrounding handler) when several share the name. -/
def resolvePatientByName (patients : List Patient) (name freshUuid : String) :
    Option (List Patient × Patient) :=
  match patients.filter (fun p => p.name == name) with
  | [] =>
    let p : Patient := { uuid := freshUuid, name := name }
    some (patients ++ [p], p)
  | [p] => some (patients, p)
  | _ => none

/-- The patient-resolution step of `add_patient_to_waiting_room`
(`consumers.py` lines 369-384): the uuid branch when the command carried
a truthy `patient_uuid`, else the name branch with the doctor-added
flag; `none` models an exception aborting the handler. -/
def resolvePatientForJoin (patients : List Patient) (name : String)
    (uuidOpt : Option String) (freshUuid : String) :
    Option (List Patient × Patient × Bool) :=
  if isTruthy uuidOpt then
    match uuidOpt with
    | some u =>
      some ((resolvePatientByUuid patients u name).1,
            (resolvePatientByUuid patients u name).2, false)
    | none => none
  else
    match resolvePatientByName patients name freshUuid with
    | some r => some (r.1, r.2, true)
    | none => none

/-- The duplicate-suppression and creation step of
`add_patient_to_waiting_room` (`consumers.py` lines 386-398): when no
active entry exists for this (doctor, patient) pair, generate the two
pins and append a fresh `Waiting` entry. -/
def createEntryIfAbsent (s : Store) (doctorId : Nat) (p : Patient)
    (byDoctor : Bool) (rng : List Nat) : Store :=
  if s.entries.any (fun e =>
      e.doctorId == doctorId && e.patientUuid == p.uuid && activeStatus e.status) then s
  else
    match generateUniquePin s.entries rng with
    | none => s
    | some (hostPin, rng2) =>
      match generateUniquePin s.entries rng2 with
      | none => s
      | some (guestPin, _) =>
        { s with
          entries := s.entries ++ [{
            id := s.nextEntryId
            doctorId := doctorId
            patientUuid := p.uuid
            status := "Waiting"
            arrivedAt := s.nextArrival
            hostPin := hostPin
            guestPin := guestPin
            addedByDoctor := byDoctor
            whiteboardActive := false }]
          nextEntryId := s.nextEntryId + 1
          nextArrival := s.nextArrival + 1 }

/-- `add_patient_to_waiting_room` (`consumers.py` lines 366-406): resolve or
create the patient, then create a new `Waiting` entry with two generated
pins unless an active entry for this (doctor, patient) pair already
exists.  Any exception (missing doctor, ambiguous name lookup) leaves
the store as it stood. -/
def addPatient (s : Store) (doctorId : Nat) (name : String)
    (uuidOpt : Option String) (freshUuid : String) (rng : List Nat) : Store :=
  if s.doctors.contains doctorId then
    match resolvePatientForJoin s.patients name uuidOpt freshUuid with
    | none => s
    | some (ps, p, byDoctor) =>
      createEntryIfAbsent { s with patients := ps } doctorId p byDoctor rng
  else s

/-- `entry.status = new; entry.save()` applied to the row with a given
primary key. -/
def updateStatusById (entries : List Entry) (i : Nat) (st : String) : List Entry :=
  entries.map (fun e => if e.id == i then { e with status := st } else e)

/-- `update_waiting_entry_status` (`consumers.py` lines 219-229):
`get(id=entry_id, doctor_id=self.doctor_id)` then an unconditional write
of the client-supplied status.  The boolean reports whether `save()` ran
(it runs whenever the row was found, even when the status is unchanged). -/
def updateWaitingEntryStatus (s : Store) (doctorId entryId : Nat)
    (newStatus : String) : Store × Bool :=
  match s.entries.filter (fun e => e.id == entryId && e.doctorId == doctorId) with
  | [e] => ({ s with entries := updateStatusById s.entries e.id newStatus }, true)
  | _ => (s, false)

/-- The `update_status` branch of `receive` (`consumers.py` lines 49-59):
apply the direct status overwrite and then unconditionally publish a
`waiting_list_update` refresh to the doctor's group. -/
def receiveUpdateStatus (s : Store) (doctorId entryId : Nat)
    (newStatus : String) : Store × Bool × List Signal :=
  let r := updateWaitingEntryStatus s doctorId entryId newStatus
  (r.1, r.2, [Signal.refresh doctorId])

/-- `update_patient_status_on_disconnect` (`consumers.py` lines 231-258):
fetch the single entry for this patient and doctor whose status is
active, set it to "Left Call" and publish a refresh; `DoesNotExist` (and
any other exception, such as `MultipleObjectsReturned`) is swallowed. -/
def updatePatientStatusOnDisconnect (s : Store) (doctorId : Nat)
    (u : String) : Store × Option Signal :=
  match s.entries.filter (fun e =>
      e.patientUuid == u && e.doctorId == doctorId && activeStatus e.status) with
  | [e] => ({ s with entries := updateStatusById s.entries e.id "Left Call" },
            some (Signal.refresh doctorId))
  | _ => (s, none)

/-- `_mark_patient_as_cancelled` (`consumers.py` lines 260-286): like the
disconnect update but writing "Cancelled", scoped to the doctor id named
in the message. -/
def markPatientAsCancelled (s : Store) (u : String) (doctorId : Nat) :
    Store × Option Signal :=
  match s.entries.filter (fun e =>
      e.patientUuid == u && e.doctorId == doctorId && activeStatus e.status) with
  | [e] => ({ s with entries := updateStatusById s.entries e.id "Cancelled" },
            some (Signal.refresh doctorId))
  | _ => (s, none)

/-- Per-connection state of a realtime session (`consumers.py`): the route
doctor id and the patient uuid stored by a later `add_patient` command
(`self.patient_uuid`, initialised to `None` on connect). -/
structure Session where
  doctorId : Nat
  patientUuid : Option String
deriving DecidableEq

/-- The `add_patient` branch of `receive` (`consumers.py` lines 60-72):
record the message's `patient_uuid` (possibly absent) on the session,
run `add_patient_to_waiting_room`, and publish a refresh. -/
def receiveAddPatient (s : Store) (sess : Session) (name : String)
    (uuidOpt : Option String) (freshUuid : String) (rng : List Nat) :
    Store × Session × List Signal :=
  (addPatient s sess.doctorId name uuidOpt freshUuid rng,
   { sess with patientUuid := uuidOpt },
   [Signal.refresh sess.doctorId])

/-- `disconnect` (`consumers.py` lines 29-41): when `self.patient_uuid` is
truthy, run the disconnect status update; otherwise nothing happens to
the store and no refresh is published. -/
def disconnect (s : Store) (sess : Session) : Store × Option Signal :=
  match sess.patientUuid with
  | some u => if u == "" then (s, none) else updatePatientStatusOnDisconnect s sess.doctorId u
  | none => (s, none)

/-- `remove_waiting_entry` (`consumers.py` lines 408-417): fetch by id and
doctor, hard-delete the row; `DoesNotExist` is swallowed. -/
def removeWaitingEntry (s : Store) (doctorId entryId : Nat) : Store :=
  match s.entries.filter (fun e => e.id == entryId && e.doctorId == doctorId) with
  | [e] => { s with entries := s.entries.filter (fun x => x.id != e.id) }
  | _ => s

/-- `purge_doctor_history` (`consumers.py` lines 419-428): delete every row
of this doctor whose status is in the terminal display set. -/
def purgeDoctorHistory (s : Store) (doctorId : Nat) : Store :=
  { s with entries := s.entries.filter (fun e =>
      !(e.doctorId == doctorId && terminalDisplay e.status)) }

/-- Ascending comparison on `arrived_at`, the `order_by('arrived_at')` key. -/
def byArrival (a b : Entry) : Prop := a.arrivedAt ≤ b.arrivedAt

instance : DecidableRel byArrival := fun a b => Nat.decLe a.arrivedAt b.arrivedAt

instance : IsTotal Entry byArrival := ⟨fun a b => Nat.le_total a.arrivedAt b.arrivedAt⟩

instance : IsTrans Entry byArrival := ⟨fun _ _ _ h h2 => Nat.le_trans h h2⟩

/-- The query of `get_waiting_list_data` (`consumers.py` lines 183-187):
the doctor's rows outside the terminal display set, ordered ascending by
arrival time. -/
def waitingEntries (s : Store) (doctorId : Nat) : List Entry :=
  List.insertionSort byArrival (s.entries.filter (fun e =>
    e.doctorId == doctorId && !(terminalDisplay e.status)))

/-- One element of the `waiting_list` push (`consumers.py` lines 190-201). -/
structure SnapshotRow where
  id : Nat
  patientName : String
  patientUuid : String
  status : String
  arrivedAt : Nat
  doctorId : Nat
  hostPin : String
  guestPin : String
  addedByDoctor : Bool
  whiteboardActive : Bool
deriving DecidableEq

/-- The patient name an entry row joins to (`entry.patient.name`). -/
def patientNameOf (s : Store) (u : String) : String :=
  ((s.patients.find? (fun p => p.uuid == u)).map (fun p => p.name)).getD ""

/-- The dictionary built for one entry of the waiting-list snapshot. -/
def snapshotRow (s : Store) (e : Entry) : SnapshotRow :=
  { id := e.id
    patientName := patientNameOf s e.patientUuid
    patientUuid := e.patientUuid
    status := e.status
    arrivedAt := e.arrivedAt
    doctorId := e.doctorId
    hostPin := e.hostPin
    guestPin := e.guestPin
    addedByDoctor := e.addedByDoctor
    whiteboardActive := e.whiteboardActive }

/-- `get_waiting_list_data` (`consumers.py` lines 179-209): empty when the
doctor does not exist, else the snapshot rows of the filtered, ordered
entries. -/
def getWaitingListData (s : Store) (doctorId : Nat) : List SnapshotRow :=
  if s.doctors.contains doctorId then (waitingEntries s doctorId).map (snapshotRow s)
  else []

/-- `_update_entry_status_and_notify` (`pexip_events/views.py` lines 15-50):
fetch the single entry for this patient uuid (no doctor scope, no status
filter); when the stored status differs from the new one, write it and
publish a refresh to that entry's doctor group, else do nothing.  Both
`DoesNotExist` and `MultipleObjectsReturned` fall into the exception
handlers and change nothing.  The boolean reports whether `save()` ran. -/
def updateEntryStatusAndNotify (s : Store) (u : String) (newStatus : String) :
    Store × Bool × Option Signal :=
  match s.entries.filter (fun e => e.patientUuid == u) with
  | [e] =>
    if e.status != newStatus then
      ({ s with entries := updateStatusById s.entries e.id newStatus },
       true, some (Signal.refresh e.doctorId))
    else (s, false, none)
  | _ => (s, false, none)

/-- `pexip_event_sink_view` (`pexip_events/views.py` lines 53-96): dispatch
on the event type and participant role; a falsy `destination_alias` is
acknowledged without any update, as is every unrecognised combination. -/
def pexipEventSink (s : Store) (event : String) (aliasOpt roleOpt : Option String) :
    Store × Bool × Option Signal :=
  if !(isTruthy aliasOpt) then (s, false, none)
  else
    match aliasOpt with
    | none => (s, false, none)
    | some a =>
      if event == "participant_connected" && roleOpt == some "guest" then
        updateEntryStatusAndNotify s a "In Call"
      else if event == "participant_disconnected" && roleOpt == some "guest" then
        updateEntryStatusAndNotify s a "Left Call"
      else if event == "conference_ended" then
        updateEntryStatusAndNotify s a "Left Call"
      else (s, false, none)

/-- The role-appropriate status filter of `_get_conference_details`
(`pexip_policy/views.py` lines 24-46): guests need "Waiting" or
"In Progress", hosts need "In Progress" or "In Call". -/
def roleStatusOk (role st : String) : Bool :=
  if role == "guest" then st == "Waiting" || st == "In Progress"
  else if role == "host" then st == "In Progress" || st == "In Call"
  else false

/-- The fields of the conference-details dictionary returned by
`_get_conference_details` on a match. -/
structure ConferenceDetails where
  conferenceId : String
  displayName : String
  hostPin : String
  guestPin : String
deriving DecidableEq

/-- `_get_conference_details` (`pexip_policy/views.py` lines 15-58): a
single-row fetch by patient uuid restricted to the role-appropriate
status set; an unsupported role, no match or an ambiguous match (the
fetch raises, the handler returns `None`) all yield `none`. -/
def getConferenceDetails (s : Store) (a role : String) : Option ConferenceDetails :=
  if role == "guest" || role == "host" then
    match s.entries.filter (fun e => e.patientUuid == a && roleStatusOk role e.status) with
    | [e] => some
        { conferenceId := e.patientUuid
          displayName := patientNameOf s e.patientUuid ++ "\x27s Virtual Room"
          hostPin := e.hostPin
          guestPin := e.guestPin }
    | _ => none
  else none

/-- The fields of the policy JSON response that the claims talk about:
the `action`, the pins on continue, and the disconnect cause on reject. -/
structure PolicyResponse where
  action : String
  name : Option String
  serviceTag : Option String
  pin : Option String
  guestPin : Option String
  disconnectCause : Option String
deriving DecidableEq

/-- The continue-action response body (`pexip_policy/views.py` lines
118-132): `result.pin` carries the host pin, `result.guest_pin` the
guest pin. -/
def continueResponse (d : ConferenceDetails) : PolicyResponse :=
  { action := "continue"
    name := some d.displayName
    serviceTag := some d.conferenceId
    pin := some d.hostPin
    guestPin := some d.guestPin
    disconnectCause := none }

/-- The reject-action response body with its disconnect cause code. -/
def rejectResponse (cause : String) : PolicyResponse :=
  { action := "reject"
    name := none
    serviceTag := none
    pin := none
    guestPin := none
    disconnectCause := some cause }

/-- `pexip_policy_view` (`pexip_policy/views.py` lines 87-139): infer the
role from the display name when absent, reject a falsy alias with
MISSING_ALIAS, otherwise continue on a details match and reject with
CONFERENCE_NOT_FOUND on none. -/
def pexipPolicyView (s : Store) (aliasOpt : Option String)
    (remoteDisplayName : String) (roleOpt : Option String) : PolicyResponse :=
  let role := match roleOpt with
    | some r => r
    | none =>
      if remoteDisplayName.toLower.startsWith "dr." then "host" else "guest"
  if !(isTruthy aliasOpt) then rejectResponse "MISSING_ALIAS"
  else
    match aliasOpt with
    | none => rejectResponse "MISSING_ALIAS"
    | some a =>
      match getConferenceDetails s a role with
      | some d => continueResponse d
      | none => rejectResponse "CONFERENCE_NOT_FOUND"

/-- One inbound mutation of the store: the realtime commands of `receive`
(`consumers.py` lines 44-145), a disconnect, or an event-sink webhook.
Random inputs (pin draws, fresh uuids) are carried in the operation. -/
inductive Op where
  | opUpdateStatus (doctorId entryId : Nat) (newStatus : String)
  | opAddPatient (doctorId : Nat) (name : String) (uuidOpt : Option String)
      (freshUuid : String) (rng : List Nat)
  | opRemovePatient (doctorId entryId : Nat)
  | opPurgeHistory (doctorId : Nat)
  | opLeaveQueue (u : String) (doctorId : Nat)
  | opDisconnect (doctorId : Nat) (uuidOpt : Option String)
  | opEventSink (event : String) (aliasOpt roleOpt : Option String)

/-- The store transition of one operation (broadcast signals dropped). -/
def stepOp (s : Store) : Op → Store
  | .opUpdateStatus d i st => (updateWaitingEntryStatus s d i st).1
  | .opAddPatient d n u f rng => addPatient s d n u f rng
  | .opRemovePatient d i => removeWaitingEntry s d i
  | .opPurgeHistory d => purgeDoctorHistory s d
  | .opLeaveQueue u d => (markPatientAsCancelled s u d).1
  | .opDisconnect d u => (disconnect s { doctorId := d, patientUuid := u }).1
  | .opEventSink ev a r => (pexipEventSink s ev a r).1

/-- Run a sequence of operations from a starting store. -/
def runOps (s : Store) (ops : List Op) : Store :=
  ops.foldl stepOp s

/-- Modelled from the spec: the status-transition paths of section 4.3
("Waiting to InProgress to InCall to LeftCall", the Cancelled branch from
any active status, the Done branch from any active status or LeftCall,
and LeftCall from any active status).  This is the spec-side relation a
refinement claim compares the code against; the code itself contains no
such table. -/
def specAllowedTransition (a b : String) : Bool :=
  (a == "Waiting" && (b == "In Progress" || b == "Cancelled" || b == "Done" || b == "Left Call")) ||
  (a == "In Progress" && (b == "In Call" || b == "Cancelled" || b == "Done" || b == "Left Call")) ||
  (a == "In Call" && (b == "Left Call" || b == "Cancelled" || b == "Done")) ||
  (a == "Left Call" && b == "Done")

/-- The entry ids of a store's rows are pairwise distinct; Django enforces
this through the auto-increment primary key. -/
def idsNodup (l : List Entry) : Prop := (l.map (fun e => e.id)).Nodup

instance (l : List Entry) : Decidable (idsNodup l) :=
  inferInstanceAs (Decidable (l.map (fun (e : Entry) => e.id)).Nodup)

/-! Helper lemmas shared by the claim theorems. -/

theorem updateEntryStatusAndNotify_eq (s : Store) (u st : String) (e : Entry)
    (hfil : s.entries.filter (fun x => x.patientUuid == u) = [e]) :
    updateEntryStatusAndNotify s u st =
      if e.status != st then
        ({ s with entries := updateStatusById s.entries e.id st },
         true, some (Signal.refresh e.doctorId))
      else (s, false, none) := by
  unfold updateEntryStatusAndNotify
  rw [hfil]

theorem generateUniquePin_fresh (entries : List Entry) :
    ∀ (rng : List Nat) (pin : String) (rest : List Nat),
      generateUniquePin entries rng = some (pin, rest) → pinExists entries pin = false := by
  intro rng
  induction rng with
  | nil => intro pin rest h; simp [generateUniquePin] at h
  | cons r rng ih =>
    intro pin rest h
    unfold generateUniquePin at h
    by_cases hc : pinExists entries (toString r) = true
    · simp only [hc, if_true] at h
      exact ih pin rest h
    · simp only [hc, if_false] at h
      cases h
      simpa using hc

theorem pinExists_false {l : List Entry} {pin : String} (h : pinExists l pin = false) :
    ∀ x ∈ l, x.hostPin ≠ pin ∧ x.guestPin ≠ pin := by
  intro x hx
  simp only [pinExists, Bool.or_eq_false_iff, List.any_eq_false] at h
  exact ⟨by simpa using h.1 x hx, by simpa using h.2 x hx⟩

theorem filter_eq_singleton_of_unique {p : Entry → Bool} :
    ∀ {l : List Entry}, idsNodup l → ∀ {e : Entry}, e ∈ l → p e = true →
      (∀ x ∈ l, p x = true → x = e) → l.filter p = [e] := by
  intro l
  induction l with
  | nil => intro _ e he; exact absurd he (List.not_mem_nil e)
  | cons a l ih =>
    intro hn e he hp hu
    have hhead : a.id ∉ l.map (fun x => x.id) := by
      have := (List.nodup_cons.mp hn).1
      simpa using this
    have htail : idsNodup l := (List.nodup_cons.mp hn).2
    rcases List.mem_cons.mp he with rfl | he2
    · have hnil : l.filter p = [] := by
        rw [List.filter_eq_nil_iff]
        intro x hx hpx
        have hxe : x = e := hu x (List.mem_cons_of_mem _ hx) hpx
        exact hhead (hxe ▸ List.mem_map_of_mem (fun y => y.id) hx)
      simp [List.filter_cons, hp, hnil]
    · have hpa : p a = false := by
        by_contra hne
        have : p a = true := by
          cases hab : p a
          · exact absurd hab hne
          · rfl
        have hae : a = e := hu a (List.mem_cons_self a l) this
        exact hhead (hae ▸ List.mem_map_of_mem (fun y => y.id) he2)
      have := ih htail he2 hp (fun x hx hpx => hu x (List.mem_cons_of_mem _ hx) hpx)
      simp [List.filter_cons, hpa, this]

theorem mem_updateStatusById {l : List Entry} {i : Nat} {st : String} {e : Entry}
    (h : e ∈ updateStatusById l i st) : ∃ x ∈ l, x.id = e.id := by
  obtain ⟨x, hx, hfx⟩ := List.mem_map.mp h
  refine ⟨x, hx, ?_⟩
  by_cases hid : (x.id == i) = true
  · rw [if_pos hid] at hfx
    rw [← hfx]
  · rw [if_neg hid] at hfx
    rw [← hfx]

theorem resolvePatientByUuid_uuid (ps : List Patient) (u n : String) :
    (resolvePatientByUuid ps u n).2.uuid = u := by
  unfold resolvePatientByUuid
  cases hf : ps.find? (fun p => p.uuid == u) with
  | none => rfl
  | some p =>
    have hpu : p.uuid = u := by simpa using List.find?_some hf
    by_cases hname : (p.name != n) = true
    · simp only [hname, if_true]
      exact hpu
    · simp only [hname, if_false]
      exact hpu

/-! Claim theorems. -/

theorem createEntryIfAbsent_of_active (s : Store) (d : Nat) (p : Patient)
    (b : Bool) (rng : List Nat)
    (h : s.entries.any (fun e =>
      e.doctorId == d && e.patientUuid == p.uuid && activeStatus e.status) = true) :
    createEntryIfAbsent s d p b rng = s := by
  unfold createEntryIfAbsent
  rw [h]
  simp

theorem resolvePatientForJoin_uuid (ps : List Patient) (n u f : String) (hu : u ≠ "") :
    resolvePatientForJoin ps n (some u) f =
      some ((resolvePatientByUuid ps u n).1, (resolvePatientByUuid ps u n).2, false) := by
  have htruth : isTruthy (some u) = true := by simp [isTruthy, hu]
  simp [resolvePatientForJoin, htruth]

/-- C7: calling the add-patient path a second time with the same doctor and
the same (truthy) patient uuid while an active entry for that pair exists
creates no second entry and leaves every stored entry unchanged — the
existence check of `add_patient_to_waiting_room` suppresses the create. -/
theorem claim7_idempotent_join (s : Store) (d : Nat) (n u fresh : String)
    (rng : List Nat) (hu : u ≠ "")
    (hact : ∃ e ∈ s.entries, e.doctorId = d ∧ e.patientUuid = u ∧ activeStatus e.status = true) :
    (addPatient s d n (some u) fresh rng).entries = s.entries := by
  obtain ⟨e, he, hd, hpu, hst⟩ := hact
  have hexists : (({ s with patients := (resolvePatientByUuid s.patients u n).1 } : Store).entries.any
      (fun x => x.doctorId == d && x.patientUuid == (resolvePatientByUuid s.patients u n).2.uuid &&
        activeStatus x.status)) = true := by
    rw [List.any_eq_true]
    refine ⟨e, he, ?_⟩
    rw [resolvePatientByUuid_uuid]
    simp [hd, hpu, hst]
  unfold addPatient
  cases hdoc : s.doctors.contains d
  · rw [if_neg Bool.false_ne_true]
  · rw [if_pos rfl, resolvePatientForJoin_uuid s.patients n u fresh hu]
    show (createEntryIfAbsent { s with patients := (resolvePatientByUuid s.patients u n).1 }
      d (resolvePatientByUuid s.patients u n).2 false rng).entries = s.entries
    rw [createEntryIfAbsent_of_active _ _ _ _ _ hexists]

/-- C7 witness: a concrete second join with the same (doctor, patient) pair
while the first entry is `Waiting` leaves the entry table unchanged. -/
theorem claim7_witness :
    ("u0" ≠ "" ∧
      ∃ e ∈ (Store.mk [1, 2] [⟨"u0", "Alice"⟩]
          [⟨0, 1, "u0", "Waiting", 0, "100001", "100002", false, false⟩] 1 1).entries,
        e.doctorId = 1 ∧ e.patientUuid = "u0" ∧ activeStatus e.status = true) ∧
    (addPatient (Store.mk [1, 2] [⟨"u0", "Alice"⟩]
        [⟨0, 1, "u0", "Waiting", 0, "100001", "100002", false, false⟩] 1 1)
        1 "Alice" (some "u0") "zz" [100003, 100004]).entries =
      (Store.mk [1, 2] [⟨"u0", "Alice"⟩]
        [⟨0, 1, "u0", "Waiting", 0, "100001", "100002", false, false⟩] 1 1).entries :=
  ⟨⟨by decide, by decide⟩,
    claim7_idempotent_join _ 1 "Alice" "u0" "zz" [100003, 100004] (by decide) (by decide)⟩

/-- C10: a session whose `add_patient` command carries no `patient_uuid`
keeps `self.patient_uuid = None`, and disconnecting such a session (in
any store state) changes no entry and publishes no refresh. -/
theorem claim10_name_only_disconnect (s s2 : Store) (sess : Session)
    (n fresh : String) (rng : List Nat) :
    (receiveAddPatient s sess n none fresh rng).2.1.patientUuid = none ∧
    disconnect s2 (receiveAddPatient s sess n none fresh rng).2.1 = (s2, none) :=
  ⟨rfl, rfl⟩

/-- C6: for an existing doctor the pushed waiting-list snapshot is the
row-for-row image of exactly those stored entries of that doctor whose
status lies outside the terminal display set, ordered ascending by
arrival time. -/
theorem claim6_snapshot (s : Store) (D : Nat) (hD : s.doctors.contains D = true) :
    getWaitingListData s D = (waitingEntries s D).map (snapshotRow s) ∧
    List.Perm (waitingEntries s D)
      (s.entries.filter (fun e => e.doctorId == D && !(terminalDisplay e.status))) ∧
    (∀ e : Entry, e ∈ waitingEntries s D ↔
      (e ∈ s.entries ∧ e.doctorId = D ∧ terminalDisplay e.status = false)) ∧
    List.Sorted byArrival (waitingEntries s D) := by
  refine ⟨?_, ?_, ?_, ?_⟩
  · unfold getWaitingListData
    rw [if_pos hD]
  · exact List.perm_insertionSort byArrival _
  · intro e
    unfold waitingEntries
    rw [(List.perm_insertionSort byArrival _).mem_iff, List.mem_filter]
    simp
  · exact List.sorted_insertionSort byArrival _

/-- C6 witness: a concrete four-entry store; the doctor-7 snapshot drops the
`Done` entry and the other doctor's entry and sorts by arrival. -/
theorem claim6_witness :
    ((Store.mk [7] [⟨"u1", "A"⟩, ⟨"u2", "B"⟩, ⟨"u3", "C"⟩]
        [⟨0, 7, "u1", "Waiting", 5, "p1", "p2", false, false⟩,
         ⟨1, 7, "u2", "Done", 3, "p3", "p4", false, false⟩,
         ⟨2, 7, "u3", "In Call", 1, "p5", "p6", true, false⟩,
         ⟨3, 9, "u1", "Waiting", 0, "p7", "p8", false, false⟩] 4 6).doctors.contains 7 = true) ∧
    getWaitingListData (Store.mk [7] [⟨"u1", "A"⟩, ⟨"u2", "B"⟩, ⟨"u3", "C"⟩]
        [⟨0, 7, "u1", "Waiting", 5, "p1", "p2", false, false⟩,
         ⟨1, 7, "u2", "Done", 3, "p3", "p4", false, false⟩,
         ⟨2, 7, "u3", "In Call", 1, "p5", "p6", true, false⟩,
         ⟨3, 9, "u1", "Waiting", 0, "p7", "p8", false, false⟩] 4 6) 7 =
      (waitingEntries (Store.mk [7] [⟨"u1", "A"⟩, ⟨"u2", "B"⟩, ⟨"u3", "C"⟩]
        [⟨0, 7, "u1", "Waiting", 5, "p1", "p2", false, false⟩,
         ⟨1, 7, "u2", "Done", 3, "p3", "p4", false, false⟩,
         ⟨2, 7, "u3", "In Call", 1, "p5", "p6", true, false⟩,
         ⟨3, 9, "u1", "Waiting", 0, "p7", "p8", false, false⟩] 4 6) 7).map
        (snapshotRow (Store.mk [7] [⟨"u1", "A"⟩, ⟨"u2", "B"⟩, ⟨"u3", "C"⟩]
        [⟨0, 7, "u1", "Waiting", 5, "p1", "p2", false, false⟩,
         ⟨1, 7, "u2", "Done", 3, "p3", "p4", false, false⟩,
         ⟨2, 7, "u3", "In Call", 1, "p5", "p6", true, false⟩,
         ⟨3, 9, "u1", "Waiting", 0, "p7", "p8", false, false⟩] 4 6)) ∧
    List.Sorted byArrival (waitingEntries (Store.mk [7] [⟨"u1", "A"⟩, ⟨"u2", "B"⟩, ⟨"u3", "C"⟩]
        [⟨0, 7, "u1", "Waiting", 5, "p1", "p2", false, false⟩,
         ⟨1, 7, "u2", "Done", 3, "p3", "p4", false, false⟩,
         ⟨2, 7, "u3", "In Call", 1, "p5", "p6", true, false⟩,
         ⟨3, 9, "u1", "Waiting", 0, "p7", "p8", false, false⟩] 4 6) 7) :=
  ⟨by decide, (claim6_snapshot _ 7 (by decide)).1, (claim6_snapshot _ 7 (by decide)).2.2.2⟩

/-- C9: disconnecting a session that joined as patient `u` for doctor `D`
transitions the unique active entry of (u, D) — when one exists — to
"Left Call" and publishes a refresh to D's group, so every session in the
group re-pushes its waiting list; when no active entry exists the
disconnect completes without changing the store and without a signal. -/
theorem claim9_disconnect (s : Store) (D : Nat) (u : String) (hu : u ≠ "")
    (hn : idsNodup s.entries) :
    (∀ e ∈ s.entries, e.patientUuid = u → e.doctorId = D → activeStatus e.status = true →
      (∀ x ∈ s.entries, x.patientUuid = u → x.doctorId = D → activeStatus x.status = true → x = e) →
      disconnect s { doctorId := D, patientUuid := some u } =
        ({ s with entries := updateStatusById s.entries e.id "Left Call" },
         some (Signal.refresh D))) ∧
    ((∀ e ∈ s.entries, ¬(e.patientUuid = u ∧ e.doctorId = D ∧ activeStatus e.status = true)) →
      disconnect s { doctorId := D, patientUuid := some u } = (s, none)) := by
  have hdis : disconnect s { doctorId := D, patientUuid := some u } =
      updatePatientStatusOnDisconnect s D u := by
    show (if u == "" then ((s, none) : Store × Option Signal)
      else updatePatientStatusOnDisconnect s D u) = _
    rw [if_neg (by simpa using hu)]
  constructor
  · intro e he hpu hd hst huniq
    have hfil : s.entries.filter
        (fun x => x.patientUuid == u && x.doctorId == D && activeStatus x.status) = [e] := by
      apply filter_eq_singleton_of_unique hn he
      · simp [hpu, hd, hst]
      · intro x hx hpx
        simp only [Bool.and_eq_true, beq_iff_eq] at hpx
        exact huniq x hx hpx.1.1 hpx.1.2 hpx.2
    rw [hdis]
    unfold updatePatientStatusOnDisconnect
    rw [hfil]
  · intro hno
    have hfil : s.entries.filter
        (fun x => x.patientUuid == u && x.doctorId == D && activeStatus x.status) = [] := by
      rw [List.filter_eq_nil_iff]
      intro x hx hpx
      simp only [Bool.and_eq_true, beq_iff_eq] at hpx
      exact hno x hx ⟨hpx.1.1, hpx.1.2, hpx.2⟩
    rw [hdis]
    unfold updatePatientStatusOnDisconnect
    rw [hfil]

/-- A one-entry store whose entry is `In Call` for doctor 3, used to witness
the disconnect transition. -/
def storeInCall : Store :=
  { doctors := [3]
    patients := [⟨"u5", "P"⟩]
    entries := [⟨0, 3, "u5", "In Call", 0, "300001", "300002", false, false⟩]
    nextEntryId := 1
    nextArrival := 1 }

/-- C9 witness: in `storeInCall` the disconnect of the session for patient
"u5" marks the entry "Left Call" and publishes a refresh to group 3. -/
theorem claim9_witness :
    ("u5" ≠ "" ∧ idsNodup storeInCall.entries) ∧
    disconnect storeInCall { doctorId := 3, patientUuid := some "u5" } =
      ({ storeInCall with entries := updateStatusById storeInCall.entries 0 "Left Call" },
       some (Signal.refresh 3)) :=
  ⟨⟨by decide, by decide⟩,
   (claim9_disconnect storeInCall 3 "u5" (by decide) (by decide)).1
     ⟨0, 3, "u5", "In Call", 0, "300001", "300002", false, false⟩
     (by decide) (by decide) (by decide) (by decide) (by decide)⟩

/-- C2 (amended): the event-sink transition to "Left Call" applies no
current-status restriction: both a `conference_ended` event and a guest
`participant_disconnected` event move the uniquely matched entry to
"Left Call" from ANY differing status — a `Done` entry included — and
only an entry already in "Left Call" is left untouched. -/
theorem claim2_webhook_leftcall (s : Store) (u : String) (hu : u ≠ "")
    (hn : idsNodup s.entries) (e : Entry) (he : e ∈ s.entries)
    (hpu : e.patientUuid = u)
    (huniq : ∀ x ∈ s.entries, x.patientUuid = u → x = e) :
    pexipEventSink s "conference_ended" (some u) none =
      updateEntryStatusAndNotify s u "Left Call" ∧
    pexipEventSink s "participant_disconnected" (some u) (some "guest") =
      updateEntryStatusAndNotify s u "Left Call" ∧
    (e.status ≠ "Left Call" →
      updateEntryStatusAndNotify s u "Left Call" =
        ({ s with entries := updateStatusById s.entries e.id "Left Call" },
         true, some (Signal.refresh e.doctorId))) ∧
    (e.status = "Left Call" →
      updateEntryStatusAndNotify s u "Left Call" = (s, false, none)) := by
  have htruth : isTruthy (some u) = true := by simp [isTruthy, hu]
  have hfil : s.entries.filter (fun x => x.patientUuid == u) = [e] := by
    apply filter_eq_singleton_of_unique hn he
    · simp [hpu]
    · intro x hx hpx
      exact huniq x hx (by simpa using hpx)
  refine ⟨?_, ?_, ?_, ?_⟩
  · simp [pexipEventSink, htruth]
  · simp [pexipEventSink, htruth]
  · intro hne
    rw [updateEntryStatusAndNotify_eq s u "Left Call" e hfil]
    rw [if_pos (by simpa using hne)]
  · intro heq
    rw [updateEntryStatusAndNotify_eq s u "Left Call" e hfil]
    rw [if_neg (by simp [heq])]

/-- A one-entry store whose entry is already `Done`, reached e.g. after a
completed visit. -/
def storeDoneEntry : Store :=
  { doctors := [1]
    patients := [⟨"u0", "Alice"⟩]
    entries := [⟨0, 1, "u0", "Done", 0, "100001", "100002", false, false⟩]
    nextEntryId := 1
    nextArrival := 1 }

/-- C2 counterexample: a `conference_ended` event for a patient whose entry
is `Done` DOES change the entry — it is re-written to "Left Call",
refuting the claim that a terminal entry is never changed by such an
event. -/
theorem claim2_cex :
    storeDoneEntry.entries.map (fun e => e.status) = ["Done"] ∧
    (pexipEventSink storeDoneEntry "conference_ended" (some "u0") none).1.entries.map
      (fun e => e.status) = ["Left Call"] ∧
    (pexipEventSink storeDoneEntry "conference_ended" (some "u0") none).1 ≠ storeDoneEntry := by
  decide

/-- C2 witness: the amended theorem applied to the concrete `Done` entry. -/
theorem claim2_witness :
    ("u0" ≠ "" ∧ idsNodup storeDoneEntry.entries) ∧
    updateEntryStatusAndNotify storeDoneEntry "u0" "Left Call" =
      ({ storeDoneEntry with
          entries := updateStatusById storeDoneEntry.entries 0 "Left Call" },
       true, some (Signal.refresh 1)) :=
  ⟨⟨by decide, by decide⟩,
   (claim2_webhook_leftcall storeDoneEntry "u0" (by decide) (by decide)
     ⟨0, 1, "u0", "Done", 0, "100001", "100002", false, false⟩
     (by decide) (by decide) (by decide)).2.2.1 (by decide)⟩

/-- C5 (amended): the webhook-driven `setStatus` is a no-op (no save, no
broadcast) when the new status equals the stored one; the realtime
`update_status` command, by contrast, publishes its refresh broadcast
unconditionally (and saves whenever the row exists), even when the
status is unchanged. -/
theorem claim5_setstatus_noop (s : Store) (u st : String)
    (hn : idsNodup s.entries) (e : Entry) (he : e ∈ s.entries)
    (hpu : e.patientUuid = u)
    (huniq : ∀ x ∈ s.entries, x.patientUuid = u → x = e)
    (heq : e.status = st) :
    updateEntryStatusAndNotify s u st = (s, false, none) ∧
    (∀ d i : Nat, (receiveUpdateStatus s d i st).2.2 = [Signal.refresh d]) := by
  have hfil : s.entries.filter (fun x => x.patientUuid == u) = [e] := by
    apply filter_eq_singleton_of_unique hn he
    · simp [hpu]
    · intro x hx hpx
      exact huniq x hx (by simpa using hpx)
  constructor
  · rw [updateEntryStatusAndNotify_eq s u st e hfil]
    rw [if_neg (by simp [heq])]
  · intro d i
    rfl

/-- A one-entry store whose entry is `Waiting` for doctor 1. -/
def storeWaitingEntry : Store :=
  { doctors := [1]
    patients := [⟨"u0", "Alice"⟩]
    entries := [⟨0, 1, "u0", "Waiting", 0, "100001", "100002", false, false⟩]
    nextEntryId := 1
    nextArrival := 1 }

/-- C5 counterexample: a realtime `update_status` command whose new status
"Waiting" equals the entry's current status still performs the store
write (`save()` runs) and still publishes a broadcast signal, refuting
the claim that an equal-status `setStatus` performs no write and no
broadcast. -/
theorem claim5_cex :
    storeWaitingEntry.entries.map (fun e => e.status) = ["Waiting"] ∧
    (receiveUpdateStatus storeWaitingEntry 1 0 "Waiting").2.1 = true ∧
    (receiveUpdateStatus storeWaitingEntry 1 0 "Waiting").2.2 ≠ [] := by
  decide

/-- C5 witness: the webhook no-op half of the amended theorem at the
concrete store. -/
theorem claim5_witness :
    (idsNodup storeWaitingEntry.entries ∧ "u0" ≠ "") ∧
    updateEntryStatusAndNotify storeWaitingEntry "u0" "Waiting" =
      (storeWaitingEntry, false, none) :=
  ⟨⟨by decide, by decide⟩,
   (claim5_setstatus_noop storeWaitingEntry "u0" "Waiting" (by decide)
     ⟨0, 1, "u0", "Waiting", 0, "100001", "100002", false, false⟩
     (by decide) (by decide) (by decide) (by decide)).1⟩

theorem getConferenceDetails_eq_match (s : Store) (a role : String)
    (hc : (role == "guest" || role == "host") = true) :
    getConferenceDetails s a role =
      match s.entries.filter (fun x => x.patientUuid == a && roleStatusOk role x.status) with
      | [e] => some
          { conferenceId := e.patientUuid
            displayName := patientNameOf s e.patientUuid ++ "\x27s Virtual Room"
            hostPin := e.hostPin
            guestPin := e.guestPin }
      | _ => none := by
  unfold getConferenceDetails
  rw [if_pos hc]

theorem pexipPolicyView_eq (s : Store) (a dn role : String) (ha : a ≠ "") :
    pexipPolicyView s (some a) dn (some role) =
      match getConferenceDetails s a role with
      | some d => continueResponse d
      | none => rejectResponse "CONFERENCE_NOT_FOUND" := by
  show (if (!(a != "")) = true then rejectResponse "MISSING_ALIAS"
    else match getConferenceDetails s a role with
      | some d => continueResponse d
      | none => rejectResponse "CONFERENCE_NOT_FOUND") = _
  rw [if_neg (by simp [ha])]

/-- C8 (amended): with an explicit supported role the policy lookup returns
the continue-action exactly when EXACTLY ONE entry for the given uuid has
a role-appropriate status ({Waiting, InProgress} for guest, {InProgress,
InCall} for host) — with two or more matching entries the single-row
fetch raises and the request is rejected; on a unique match the response
carries the entry's host and guest pins; an unsupported role and a
missing alias are rejected with a disconnect cause. -/
theorem claim8_policy (s : Store) (a dn role : String) (ha : a ≠ "")
    (hn : idsNodup s.entries) :
    ((pexipPolicyView s (some a) dn (some role)).action = "continue" ↔
      ∃ e ∈ s.entries, (e.patientUuid = a ∧ roleStatusOk role e.status = true ∧
        ∀ x ∈ s.entries, x.patientUuid = a → roleStatusOk role x.status = true → x = e)) ∧
    (∀ e ∈ s.entries, e.patientUuid = a → roleStatusOk role e.status = true →
      (∀ x ∈ s.entries, x.patientUuid = a → roleStatusOk role x.status = true → x = e) →
      pexipPolicyView s (some a) dn (some role) = continueResponse
        { conferenceId := a
          displayName := patientNameOf s a ++ "\x27s Virtual Room"
          hostPin := e.hostPin
          guestPin := e.guestPin }) ∧
    (role ≠ "guest" → role ≠ "host" →
      pexipPolicyView s (some a) dn (some role) = rejectResponse "CONFERENCE_NOT_FOUND") ∧
    (pexipPolicyView s none dn (some role) = rejectResponse "MISSING_ALIAS") := by
  refine ⟨?_, ?_, ?_, ?_⟩
  · by_cases hc : (role == "guest" || role == "host") = true
    · rw [pexipPolicyView_eq s a dn role ha, getConferenceDetails_eq_match s a role hc]
      cases hfil : s.entries.filter (fun x => x.patientUuid == a && roleStatusOk role x.status) with
      | nil =>
        constructor
        · intro h
          exact absurd h (by simp [rejectResponse])
        · intro h
          obtain ⟨e, he, hpu, hst, huniq⟩ := h
          have : e ∈ s.entries.filter (fun x => x.patientUuid == a && roleStatusOk role x.status) :=
            List.mem_filter.mpr ⟨he, by simp [hpu, hst]⟩
          rw [hfil] at this
          exact absurd this (List.not_mem_nil e)
      | cons e rest =>
        cases rest with
        | nil =>
          constructor
          · intro _
            have hmem : e ∈ s.entries.filter
                (fun x => x.patientUuid == a && roleStatusOk role x.status) := by
              rw [hfil]
              exact List.mem_cons_self e []
            have he := List.mem_filter.mp hmem
            have hprop := he.2
            simp only [Bool.and_eq_true, beq_iff_eq] at hprop
            refine ⟨e, he.1, hprop.1, hprop.2, ?_⟩
            intro x hx hpu hst
            have : x ∈ s.entries.filter
                (fun y => y.patientUuid == a && roleStatusOk role y.status) :=
              List.mem_filter.mpr ⟨hx, by simp [hpu, hst]⟩
            rw [hfil] at this
            simpa using this
          · intro _
            rfl
        | cons e2 rest2 =>
          constructor
          · intro h
            exact absurd h (by simp [rejectResponse])
          · intro h
            obtain ⟨x, hx, hpu, hst, huniq⟩ := h
            have hsingle : s.entries.filter
                (fun y => y.patientUuid == a && roleStatusOk role y.status) = [x] := by
              apply filter_eq_singleton_of_unique hn hx
              · simp [hpu, hst]
              · intro y hy hpy
                simp only [Bool.and_eq_true, beq_iff_eq] at hpy
                exact huniq y hy hpy.1 hpy.2
            rw [hfil] at hsingle
            exact absurd hsingle (by simp)
    · constructor
      · intro h
        have hrole : role ≠ "guest" ∧ role ≠ "host" := by
          constructor <;> intro hr <;> exact hc (by simp [hr])
        have hnone : getConferenceDetails s a role = none := by
          unfold getConferenceDetails
          rw [if_neg hc]
        rw [pexipPolicyView_eq s a dn role ha, hnone] at h
        exact absurd h (by simp [rejectResponse])
      · intro h
        obtain ⟨e, _, _, hst, _⟩ := h
        have : (role == "guest" || role == "host") = true := by
          unfold roleStatusOk at hst
          by_cases hg : (role == "guest") = true
          · simp [hg]
          · by_cases hh : (role == "host") = true
            · simp [hh]
            · rw [if_neg hg, if_neg hh] at hst
              exact absurd hst (by simp)
        exact absurd this hc
  · intro e he hpu hst huniq
    have hc : (role == "guest" || role == "host") = true := by
      unfold roleStatusOk at hst
      by_cases hg : (role == "guest") = true
      · simp [hg]
      · by_cases hh : (role == "host") = true
        · simp [hh]
        · rw [if_neg hg, if_neg hh] at hst
          exact absurd hst (by simp)
    have hsingle : s.entries.filter
        (fun y => y.patientUuid == a && roleStatusOk role y.status) = [e] := by
      apply filter_eq_singleton_of_unique hn he
      · simp [hpu, hst]
      · intro y hy hpy
        simp only [Bool.and_eq_true, beq_iff_eq] at hpy
        exact huniq y hy hpy.1 hpy.2
    rw [pexipPolicyView_eq s a dn role ha, getConferenceDetails_eq_match s a role hc, hsingle]
    show continueResponse
        { conferenceId := e.patientUuid
          displayName := patientNameOf s e.patientUuid ++ "\x27s Virtual Room"
          hostPin := e.hostPin
          guestPin := e.guestPin } =
      continueResponse
        { conferenceId := a
          displayName := patientNameOf s a ++ "\x27s Virtual Room"
          hostPin := e.hostPin
          guestPin := e.guestPin }
    rw [hpu]
  · intro hg hh
    have hc : (role == "guest" || role == "host") = false := by
      simp [hg, hh]
    have hnone : getConferenceDetails s a role = none := by
      unfold getConferenceDetails
      rw [if_neg (by simp [hc])]
    rw [pexipPolicyView_eq s a dn role ha, hnone]
  · rfl

/-- A store in which the same patient uuid "u" is simultaneously `Waiting`
for two different doctors — reachable, because duplicate-join suppression
is scoped per doctor. -/
def storeTwoQueues : Store :=
  { doctors := [1, 2]
    patients := [⟨"u", "A"⟩]
    entries := [⟨0, 1, "u", "Waiting", 0, "100001", "100002", false, false⟩,
                ⟨1, 2, "u", "Waiting", 1, "100003", "100004", false, false⟩]
    nextEntryId := 2
    nextArrival := 2 }

/-- C8 counterexample: an entry for uuid "u" with a guest-appropriate status
(`Waiting`) exists, yet the guest policy lookup REJECTS, because two
entries match and the single-row fetch raises — refuting "continue
exactly when an entry for the given patient uuid has status in
{Waiting, InProgress}". -/
theorem claim8_cex :
    (∃ e ∈ storeTwoQueues.entries,
      e.patientUuid = "u" ∧ (e.status = "Waiting" ∨ e.status = "In Progress")) ∧
    pexipPolicyView storeTwoQueues (some "u") "" (some "guest") =
      rejectResponse "CONFERENCE_NOT_FOUND" := by
  decide

/-- C8 witness: the amended theorem applied to the one-entry `In Call` store
with role host yields the continue-action carrying the entry's pin pair. -/
theorem claim8_witness :
    ("u5" ≠ "" ∧ idsNodup storeInCall.entries) ∧
    pexipPolicyView storeInCall (some "u5") "Dr. X" (some "host") = continueResponse
      { conferenceId := "u5"
        displayName := patientNameOf storeInCall "u5" ++ "\x27s Virtual Room"
        hostPin := "300001"
        guestPin := "300002" } :=
  ⟨⟨by decide, by decide⟩,
   (claim8_policy storeInCall "u5" "Dr. X" "host" (by decide) (by decide)).2.1
     ⟨0, 3, "u5", "In Call", 0, "300001", "300002", false, false⟩
     (by decide) (by decide) (by decide) (by decide)⟩

theorem createEntryIfAbsent_patients (s : Store) (d : Nat) (p : Patient)
    (b : Bool) (rng : List Nat) :
    (createEntryIfAbsent s d p b rng).patients = s.patients := by
  unfold createEntryIfAbsent
  split
  · rfl
  · split
    · rfl
    · split
      · rfl
      · rfl

theorem addPatient_new_entry (s : Store) (d : Nat) (n : String)
    (uuidOpt : Option String) (fresh : String) (rng : List Nat) :
    ∀ e ∈ (addPatient s d n uuidOpt fresh rng).entries, e ∈ s.entries ∨
      (e.id = s.nextEntryId ∧ e.status = "Waiting" ∧
       pinExists s.entries e.hostPin = false ∧ pinExists s.entries e.guestPin = false ∧
       ∃ ps p b, resolvePatientForJoin s.patients n uuidOpt fresh = some (ps, p, b) ∧
         e.patientUuid = p.uuid ∧ e.addedByDoctor = b) := by
  intro e
  unfold addPatient
  cases hdoc : s.doctors.contains d with
  | false =>
    rw [if_neg Bool.false_ne_true]
    exact fun he => Or.inl he
  | true =>
    rw [if_pos rfl]
    cases hres : resolvePatientForJoin s.patients n uuidOpt fresh with
    | none => exact fun he => Or.inl he
    | some r =>
      obtain ⟨ps, p, b⟩ := r
      intro he
      have he2 : e ∈ (createEntryIfAbsent { s with patients := ps } d p b rng).entries := he
      unfold createEntryIfAbsent at he2
      split at he2
      · exact Or.inl he2
      · split at he2
        · exact Or.inl he2
        · rename_i hostPin rng2 hg1
          split at he2
          · exact Or.inl he2
          · rename_i guestPin rest hg2
            rcases List.mem_append.mp he2 with h1 | h2
            · exact Or.inl h1
            · have heq : e = ⟨s.nextEntryId, d, p.uuid, "Waiting", s.nextArrival,
                  hostPin, guestPin, b, false⟩ := by
                simpa using h2
              refine Or.inr ⟨?_, ?_, ?_, ?_, ps, p, b, rfl, ?_, ?_⟩
              · rw [heq]
              · rw [heq]
              · rw [heq]
                exact generateUniquePin_fresh _ rng hostPin rng2 hg1
              · rw [heq]
                exact generateUniquePin_fresh _ rng2 guestPin rest hg2
              · rw [heq]
              · rw [heq]

/-- C1 (amended): each of the two pins generated on the createEntry path is
distinct from every hostPin and every guestPin already stored in any
other (pre-existing) entry; distinctness of the two pins of the SAME new
entry is NOT guaranteed, because the uniqueness check runs against the
store, which does not yet contain the in-flight host pin. -/
theorem claim1_pin_freshness (s : Store) (d : Nat) (n : String)
    (uuidOpt : Option String) (fresh : String) (rng : List Nat)
    (hfresh : ∀ x ∈ s.entries, x.id ≠ s.nextEntryId) :
    ∀ e ∈ (addPatient s d n uuidOpt fresh rng).entries, e.id = s.nextEntryId →
      ∀ x ∈ s.entries,
        e.hostPin ≠ x.hostPin ∧ e.hostPin ≠ x.guestPin ∧
        e.guestPin ≠ x.hostPin ∧ e.guestPin ≠ x.guestPin := by
  intro e he hid x hx
  rcases addPatient_new_entry s d n uuidOpt fresh rng e he with h | ⟨_, _, hhp, hgp, _⟩
  · exact absurd hid (hfresh e h)
  · have h1 := pinExists_false hhp x hx
    have h2 := pinExists_false hgp x hx
    exact ⟨h1.1.symm, h1.2.symm, h2.1.symm, h2.2.symm⟩

/-- An initial store with two registered doctors and nothing else, from
which the counterexample runs start. -/
def storeDoctors12 : Store :=
  { doctors := [1, 2], patients := [], entries := [], nextEntryId := 0, nextArrival := 0 }

/-- C1 counterexample: with the random stream drawing 111111 twice, the
entry created by a join receives hostPin = guestPin = "111111" — the
second `_generate_unique_pin` call cannot see the first pin because the
entry is not yet stored, refuting "hostPin and guestPin of that entry
are distinct from each other". -/
theorem claim1_cex :
    (addPatient storeDoctors12 1 "Alice" none "u1" [111111, 111111]).entries.map
      (fun e => (e.hostPin, e.guestPin)) = [("111111", "111111")] ∧
    (addPatient storeDoctors12 1 "Alice" none "u1" [111111, 111111]).entries ≠ [] ∧
    (∀ e ∈ (addPatient storeDoctors12 1 "Alice" none "u1" [111111, 111111]).entries,
      e.hostPin = e.guestPin) := by
  decide

/-- C1 witness: the amended freshness theorem applied to a join against the
store already holding pins "300001"/"300002": the new pins "400001" and
"400002" differ from both stored pins. -/
theorem claim1_witness :
    (∀ x ∈ storeInCall.entries, x.id ≠ storeInCall.nextEntryId) ∧
    ((⟨1, 3, "u7", "Waiting", 1, "400001", "400002", true, false⟩ : Entry).hostPin ≠
        (⟨0, 3, "u5", "In Call", 0, "300001", "300002", false, false⟩ : Entry).hostPin ∧
      (⟨1, 3, "u7", "Waiting", 1, "400001", "400002", true, false⟩ : Entry).hostPin ≠
        (⟨0, 3, "u5", "In Call", 0, "300001", "300002", false, false⟩ : Entry).guestPin ∧
      (⟨1, 3, "u7", "Waiting", 1, "400001", "400002", true, false⟩ : Entry).guestPin ≠
        (⟨0, 3, "u5", "In Call", 0, "300001", "300002", false, false⟩ : Entry).hostPin ∧
      (⟨1, 3, "u7", "Waiting", 1, "400001", "400002", true, false⟩ : Entry).guestPin ≠
        (⟨0, 3, "u5", "In Call", 0, "300001", "300002", false, false⟩ : Entry).guestPin) :=
  ⟨by decide,
   claim1_pin_freshness storeInCall 3 "Q" none "u7" [400001, 400002] (by decide)
     ⟨1, 3, "u7", "Waiting", 1, "400001", "400002", true, false⟩ (by decide) (by decide)
     ⟨0, 3, "u5", "In Call", 0, "300001", "300002", false, false⟩ (by decide)⟩

theorem updateWaitingEntryStatus_entries (s : Store) (d i : Nat) (st : String) :
    ∀ e ∈ (updateWaitingEntryStatus s d i st).1.entries, ∃ x ∈ s.entries, x.id = e.id := by
  intro e
  unfold updateWaitingEntryStatus
  cases hfil : s.entries.filter (fun x => x.id == i && x.doctorId == d) with
  | nil => exact fun he => ⟨e, he, rfl⟩
  | cons e1 rest =>
    cases rest with
    | nil => exact fun he => mem_updateStatusById he
    | cons e2 rest2 => exact fun he => ⟨e, he, rfl⟩

theorem updatePatientStatusOnDisconnect_entries (s : Store) (d : Nat) (u : String) :
    ∀ e ∈ (updatePatientStatusOnDisconnect s d u).1.entries, ∃ x ∈ s.entries, x.id = e.id := by
  intro e
  unfold updatePatientStatusOnDisconnect
  cases hfil : s.entries.filter (fun x =>
      x.patientUuid == u && x.doctorId == d && activeStatus x.status) with
  | nil => exact fun he => ⟨e, he, rfl⟩
  | cons e1 rest =>
    cases rest with
    | nil => exact fun he => mem_updateStatusById he
    | cons e2 rest2 => exact fun he => ⟨e, he, rfl⟩

theorem markPatientAsCancelled_entries (s : Store) (u : String) (d : Nat) :
    ∀ e ∈ (markPatientAsCancelled s u d).1.entries, ∃ x ∈ s.entries, x.id = e.id := by
  intro e
  unfold markPatientAsCancelled
  cases hfil : s.entries.filter (fun x =>
      x.patientUuid == u && x.doctorId == d && activeStatus x.status) with
  | nil => exact fun he => ⟨e, he, rfl⟩
  | cons e1 rest =>
    cases rest with
    | nil => exact fun he => mem_updateStatusById he
    | cons e2 rest2 => exact fun he => ⟨e, he, rfl⟩

theorem updateEntryStatusAndNotify_entries (s : Store) (u st : String) :
    ∀ e ∈ (updateEntryStatusAndNotify s u st).1.entries, ∃ x ∈ s.entries, x.id = e.id := by
  intro e
  unfold updateEntryStatusAndNotify
  cases hfil : s.entries.filter (fun x => x.patientUuid == u) with
  | nil => exact fun he => ⟨e, he, rfl⟩
  | cons e1 rest =>
    cases rest with
    | nil =>
      intro he
      have he2 : e ∈ (if (e1.status != st) = true
          then (({ s with entries := updateStatusById s.entries e1.id st } : Store),
                true, some (Signal.refresh e1.doctorId))
          else ((s, false, none) : Store × Bool × Option Signal)).1.entries := he
      by_cases hst : (e1.status != st) = true
      · rw [if_pos hst] at he2
        exact mem_updateStatusById he2
      · rw [if_neg hst] at he2
        exact ⟨e, he2, rfl⟩
    | cons e2 rest2 => exact fun he => ⟨e, he, rfl⟩

theorem pexipEventSink_entries (s : Store) (ev : String) (a r : Option String) :
    ∀ e ∈ (pexipEventSink s ev a r).1.entries, ∃ x ∈ s.entries, x.id = e.id := by
  intro e
  unfold pexipEventSink
  by_cases ht : (!(isTruthy a)) = true
  · rw [if_pos ht]
    exact fun he => ⟨e, he, rfl⟩
  · rw [if_neg ht]
    cases a with
    | none => exact fun he => ⟨e, he, rfl⟩
    | some al =>
      intro he
      have he2 : e ∈ (if (ev == "participant_connected" && r == some "guest") = true
          then updateEntryStatusAndNotify s al "In Call"
          else if (ev == "participant_disconnected" && r == some "guest") = true
          then updateEntryStatusAndNotify s al "Left Call"
          else if (ev == "conference_ended") = true
          then updateEntryStatusAndNotify s al "Left Call"
          else ((s, false, none) : Store × Bool × Option Signal)).1.entries := he
      by_cases h1 : (ev == "participant_connected" && r == some "guest") = true
      · rw [if_pos h1] at he2
        exact updateEntryStatusAndNotify_entries s al "In Call" e he2
      · rw [if_neg h1] at he2
        by_cases h2 : (ev == "participant_disconnected" && r == some "guest") = true
        · rw [if_pos h2] at he2
          exact updateEntryStatusAndNotify_entries s al "Left Call" e he2
        · rw [if_neg h2] at he2
          by_cases h3 : (ev == "conference_ended") = true
          · rw [if_pos h3] at he2
            exact updateEntryStatusAndNotify_entries s al "Left Call" e he2
          · rw [if_neg h3] at he2
            exact ⟨e, he2, rfl⟩

theorem disconnect_entries (s : Store) (sess : Session) :
    ∀ e ∈ (disconnect s sess).1.entries, ∃ x ∈ s.entries, x.id = e.id := by
  intro e
  unfold disconnect
  cases sess.patientUuid with
  | none => exact fun he => ⟨e, he, rfl⟩
  | some u =>
    intro he
    have he2 : e ∈ (if (u == "") = true then ((s, none) : Store × Option Signal)
        else updatePatientStatusOnDisconnect s sess.doctorId u).1.entries := he
    by_cases hu : (u == "") = true
    · rw [if_pos hu] at he2
      exact ⟨e, he2, rfl⟩
    · rw [if_neg hu] at he2
      exact updatePatientStatusOnDisconnect_entries s sess.doctorId u e he2

theorem removeWaitingEntry_entries (s : Store) (d i : Nat) :
    ∀ e ∈ (removeWaitingEntry s d i).entries, e ∈ s.entries := by
  intro e
  unfold removeWaitingEntry
  cases hfil : s.entries.filter (fun x => x.id == i && x.doctorId == d) with
  | nil => exact id
  | cons e1 rest =>
    cases rest with
    | nil => exact fun he => (List.mem_filter.mp he).1
    | cons e2 rest2 => exact id

theorem purgeDoctorHistory_entries (s : Store) (d : Nat) :
    ∀ e ∈ (purgeDoctorHistory s d).entries, e ∈ s.entries := by
  intro e he
  exact (List.mem_filter.mp he).1

/-- C3 (amended): every entry created by any operation starts in status
"Waiting" — no operation ever creates an entry in a terminal status; the
transition half of the claim is refuted separately, since `update_status`
writes any client-supplied status unconditionally. -/
theorem claim3_created_waiting (s : Store) (op : Op) (e : Entry)
    (hfresh : ∀ x ∈ s.entries, x.id ≠ e.id)
    (he : e ∈ (stepOp s op).entries) : e.status = "Waiting" := by
  cases op with
  | opUpdateStatus d i st =>
    obtain ⟨x, hx, hxid⟩ := updateWaitingEntryStatus_entries s d i st e he
    exact absurd hxid (hfresh x hx)
  | opAddPatient d n u f rng =>
    rcases addPatient_new_entry s d n u f rng e he with h | ⟨_, hst, _⟩
    · exact absurd rfl (hfresh e h)
    · exact hst
  | opRemovePatient d i =>
    exact absurd rfl (hfresh e (removeWaitingEntry_entries s d i e he))
  | opPurgeHistory d =>
    exact absurd rfl (hfresh e (purgeDoctorHistory_entries s d e he))
  | opLeaveQueue u d =>
    obtain ⟨x, hx, hxid⟩ := markPatientAsCancelled_entries s u d e he
    exact absurd hxid (hfresh x hx)
  | opDisconnect d u =>
    obtain ⟨x, hx, hxid⟩ := disconnect_entries s { doctorId := d, patientUuid := u } e he
    exact absurd hxid (hfresh x hx)
  | opEventSink ev a r =>
    obtain ⟨x, hx, hxid⟩ := pexipEventSink_entries s ev a r e he
    exact absurd hxid (hfresh x hx)

/-- The store after: patient joins doctor 1, the entry is marked `Done` by
an `update_status` command. -/
def claim3runA : Store :=
  runOps storeDoctors12
    [Op.opAddPatient 1 "A" none "u1" [100001, 100002], Op.opUpdateStatus 1 0 "Done"]

/-- The same run after one further `update_status` back to "Waiting". -/
def claim3runB : Store := stepOp claim3runA (Op.opUpdateStatus 1 0 "Waiting")

/-- C3 counterexample: a reachable operation sequence drives the entry from
`Done` back to `Waiting`, a status change along no path of section 4.3 —
`update_status` applies any client-supplied status unconditionally. -/
theorem claim3_cex :
    claim3runA.entries.map (fun e => e.status) = ["Done"] ∧
    claim3runB.entries.map (fun e => e.status) = ["Waiting"] ∧
    specAllowedTransition "Done" "Waiting" = false := by
  decide

/-- C3 witness: the creation half applied concretely — the entry created by
the join against `storeInCall` starts as "Waiting". -/
theorem claim3_witness :
    (∀ x ∈ storeInCall.entries,
      x.id ≠ (⟨1, 3, "u7", "Waiting", 1, "400001", "400002", true, false⟩ : Entry).id) ∧
    (⟨1, 3, "u7", "Waiting", 1, "400001", "400002", true, false⟩ : Entry).status = "Waiting" :=
  ⟨by decide,
   claim3_created_waiting storeInCall (Op.opAddPatient 3 "Q" none "u7" [400001, 400002])
     ⟨1, 3, "u7", "Waiting", 1, "400001", "400002", true, false⟩ (by decide) (by decide)⟩

theorem addPatient_patients (s : Store) (d : Nat) (n : String) (uuidOpt : Option String)
    (fresh : String) (rng : List Nat) (ps : List Patient) (p : Patient) (b : Bool)
    (hdoc : s.doctors.contains d = true)
    (hres : resolvePatientForJoin s.patients n uuidOpt fresh = some (ps, p, b)) :
    (addPatient s d n uuidOpt fresh rng).patients = ps := by
  unfold addPatient
  rw [hdoc, if_pos rfl, hres]
  show (createEntryIfAbsent { s with patients := ps } d p b rng).patients = ps
  rw [createEntryIfAbsent_patients]

theorem resolvePatientForJoin_name_nil (ps : List Patient) (n fresh : String)
    (h : ps.filter (fun p => p.name == n) = []) :
    resolvePatientForJoin ps n none fresh =
      some (ps ++ [{ uuid := fresh, name := n }], { uuid := fresh, name := n }, true) := by
  unfold resolvePatientForJoin
  rw [if_neg (by simp [isTruthy])]
  unfold resolvePatientByName
  rw [h]

theorem resolvePatientForJoin_name_one (ps : List Patient) (n fresh : String) (p : Patient)
    (h : ps.filter (fun q => q.name == n) = [p]) :
    resolvePatientForJoin ps n none fresh = some (ps, p, true) := by
  unfold resolvePatientForJoin
  rw [if_neg (by simp [isTruthy])]
  unfold resolvePatientByName
  rw [h]

/-- C4 (amended): a name-only join mints a fresh uuid and a new Patient only
when NO Patient with that name exists; when exactly one Patient with that
exact name already exists (e.g. from a prior uuid-bearing join), the
existing Patient — with its original uuid — is silently reused and no
second Patient identity is created.  In both cases any entry the join
creates is flagged addedByDoctor = true. -/
theorem claim4_name_resolution (s : Store) (d : Nat) (n fresh : String) (rng : List Nat)
    (hdoc : s.doctors.contains d = true)
    (hfresh : ∀ x ∈ s.entries, x.id ≠ s.nextEntryId) :
    ((s.patients.filter (fun p => p.name == n) = []) →
      (addPatient s d n none fresh rng).patients =
        s.patients ++ [{ uuid := fresh, name := n }] ∧
      ∀ e ∈ (addPatient s d n none fresh rng).entries, e.id = s.nextEntryId →
        e.patientUuid = fresh ∧ e.addedByDoctor = true) ∧
    (∀ p : Patient, s.patients.filter (fun q => q.name == n) = [p] →
      (addPatient s d n none fresh rng).patients = s.patients ∧
      ∀ e ∈ (addPatient s d n none fresh rng).entries, e.id = s.nextEntryId →
        e.patientUuid = p.uuid ∧ e.addedByDoctor = true) := by
  constructor
  · intro hnil
    have hres := resolvePatientForJoin_name_nil s.patients n fresh hnil
    refine ⟨addPatient_patients s d n none fresh rng _ _ _ hdoc hres, ?_⟩
    intro e he hid
    rcases addPatient_new_entry s d n none fresh rng e he with
      h | ⟨_, _, _, _, ps2, p2, b2, hres2, hpu, hby⟩
    · exact absurd hid (hfresh e h)
    · have heq : ((s.patients ++ [{ uuid := fresh, name := n }] : List Patient),
          ({ uuid := fresh, name := n } : Patient), true) = (ps2, p2, b2) :=
        Option.some.inj (hres.symm.trans hres2)
      have hp2 : p2 = { uuid := fresh, name := n } := by
        have h2 := congrArg (fun t : List Patient × Patient × Bool => t.2.1) heq
        simpa using h2.symm
      have hb2 : b2 = true := by
        have h2 := congrArg (fun t : List Patient × Patient × Bool => t.2.2) heq
        simpa using h2.symm
      constructor
      · rw [hpu, hp2]
      · rw [hby, hb2]
  · intro p hone
    have hres := resolvePatientForJoin_name_one s.patients n fresh p hone
    refine ⟨addPatient_patients s d n none fresh rng _ _ _ hdoc hres, ?_⟩
    intro e he hid
    rcases addPatient_new_entry s d n none fresh rng e he with
      h | ⟨_, _, _, _, ps2, p2, b2, hres2, hpu, hby⟩
    · exact absurd hid (hfresh e h)
    · have heq : ((s.patients : List Patient), p, true) = (ps2, p2, b2) :=
        Option.some.inj (hres.symm.trans hres2)
      have hp2 : p2 = p := by
        have h2 := congrArg (fun t : List Patient × Patient × Bool => t.2.1) heq
        simpa using h2.symm
      have hb2 : b2 = true := by
        have h2 := congrArg (fun t : List Patient × Patient × Bool => t.2.2) heq
        simpa using h2.symm
      constructor
      · rw [hpu, hp2]
      · rw [hby, hb2]

/-- The store after: a uuid-bearing join creates patient "Alice" with uuid
"u0" for doctor 1, the entry is marked `Done`, and then a NAME-ONLY join
for "Alice" arrives carrying the would-be fresh uuid "u9". -/
def claim4run : Store :=
  runOps storeDoctors12
    [Op.opAddPatient 1 "Alice" (some "u0") "zz" [100001, 100002],
     Op.opUpdateStatus 1 0 "Done",
     Op.opAddPatient 1 "Alice" none "u9" [100003, 100004]]

/-- C4 counterexample: the name-only rejoin does NOT mint a second Patient
identity — the Patient table still holds exactly the one patient with
uuid "u0", and the entry the rejoin created references "u0", not the
fresh uuid "u9" (it is, however, flagged addedByDoctor).  This refutes
"mints a fresh random uuid for a new Patient identity ... even when a
Patient with that exact name already exists". -/
theorem claim4_cex :
    claim4run.patients = [⟨"u0", "Alice"⟩] ∧
    claim4run.entries.map (fun e => (e.id, e.patientUuid, e.status, e.addedByDoctor)) =
      [(0, "u0", "Done", false), (1, "u0", "Waiting", true)] ∧
    (∀ e ∈ claim4run.entries, e.patientUuid ≠ "u9") := by
  decide

/-- C4 witness: the amended theorem at the concrete store already holding
patient ("u0", "Alice"): the name-only join keeps the Patient table
unchanged and the created entry carries uuid "u0" and the doctor-added
flag. -/
theorem claim4_witness :
    (storeDoneEntry.doctors.contains 1 = true ∧
      storeDoneEntry.patients.filter (fun q => q.name == "Alice") = [⟨"u0", "Alice"⟩]) ∧
    (addPatient storeDoneEntry 1 "Alice" none "u9" [100003, 100004]).patients =
      storeDoneEntry.patients ∧
    ((⟨1, 1, "u0", "Waiting", 1, "100003", "100004", true, false⟩ : Entry).patientUuid =
        (⟨"u0", "Alice"⟩ : Patient).uuid ∧
      (⟨1, 1, "u0", "Waiting", 1, "100003", "100004", true, false⟩ : Entry).addedByDoctor = true) :=
  ⟨⟨by decide, by decide⟩,
   ((claim4_name_resolution storeDoneEntry 1 "Alice" "u9" [100003, 100004]
      (by decide) (by decide)).2 ⟨"u0", "Alice"⟩ (by decide)).1,
   ((claim4_name_resolution storeDoneEntry 1 "Alice" "u9" [100003, 100004]
      (by decide) (by decide)).2 ⟨"u0", "Alice"⟩ (by decide)).2
     ⟨1, 1, "u0", "Waiting", 1, "100003", "100004", true, false⟩ (by decide) (by decide)⟩

end WaitingRoomModel
